import Mathlib

/-!
Shallow embedding of `src/shiny_uniport_checker.py` (UniProt feature lookup
tool) and proofs about its core logic: coordinate normalization, interval
overlap filtering, ordered deduplication/aggregation of feature labels, input
validation, and the feature-map layout computed by the `plot` renderer.

Python strings are modelled by Lean `String` (in this toolchain a list of
code points, matching Python's code-point semantics for `len`, slicing and
equality).  Python integers are modelled by `Int`.  The network fetch is an
external collaborator and is modelled as an oracle argument.
-/

namespace UniportChecker

/-- Python `str.strip()`: drop whitespace from both ends.  (Embedded directly
on the code-point list so that it evaluates inside the kernel.) -/
def pyStrip (s : String) : String :=
  ⟨((s.data.dropWhile Char.isWhitespace).reverse.dropWhile Char.isWhitespace).reverse⟩

/-- Python `str.lower()`: lower-case every character. -/
def pyLower (s : String) : String :=
  ⟨s.data.map Char.toLower⟩

/-- Python slicing `s[:n]`: the first `n` code points. -/
def pyTake (s : String) (n : Nat) : String :=
  ⟨s.data.take n⟩

/-- One `location` sub-object of a raw UniProt feature entry.
`loc.get("start", {}).get("value", -1)` is modelled by an optional value:
`none` means the nested lookup misses (absent key), `some v` the present
integer. -/
structure RawLocation where
  startValue? : Option Int
  endValue? : Option Int
deriving DecidableEq

/-- One entry of the raw document's `features` list.  `ftype` and
`description` hold the results of `feature.get("type", "")` and
`feature.get("description", "")` (an absent key is the empty string). -/
structure RawFeature where
  ftype : String
  description : String
  location : RawLocation
deriving DecidableEq

/-- The raw JSON document returned by the UniProt fetch, restricted to the
fields the program reads.  `sequenceLength?` models the nested lookup
`data.get("sequence", {}).get("length", 0)` (`none` = some level absent);
`proteinName?` models the nested `proteinDescription.recommendedName.
fullName.value` path of lines 108-114 (`none` = any level absent, in which
case the code keeps the default "Unknown"). -/
structure RawDocument where
  features : List RawFeature
  sequenceLength? : Option Int
  proteinName? : Option String
deriving DecidableEq

/-- A normalized feature record, the `feature_dict` of
`get_features_detailed` (type and description stripped, coordinates with
sentinel -1 for a missing value). -/
structure Feature where
  ftype : String
  description : String
  start : Int
  fend : Int
deriving DecidableEq

/-- Normalization of one raw entry, shared verbatim by
`get_feature_descriptions` (lines 35-40) and `get_features_detailed`
(lines 85-98): strip the type, drop the entry when the type is `"chain"`
case-insensitively, read the nested coordinates with default -1, strip the
description. -/
def normalizeFeature (rf : RawFeature) : Option Feature :=
  let ftype := pyStrip rf.ftype
  if pyLower ftype = "chain" then none
  else some { ftype := ftype
              description := pyStrip rf.description
              start := rf.location.startValue?.getD (-1)
              fend := rf.location.endValue?.getD (-1) }

/-- All normalized features of a document in input order (the `all_features`
accumulation of `get_features_detailed`). -/
def normalize (doc : RawDocument) : List Feature :=
  doc.features.filterMap normalizeFeature

/-- The overlap test of lines 42 and 104:
`not (fend < start or fstart > end)`. -/
def overlaps (f : Feature) (qstart qend : Int) : Bool :=
  !(f.fend < qstart || f.start > qend)

/-- The overlap filtering both functions perform while looping over the
normalized features: keep exactly those passing `overlaps`, in input order. -/
def filter_overlap (features : List Feature) (qstart qend : Int) : List Feature :=
  features.filter (fun f => overlaps f qstart qend)

/-- Label formatting shared by lines 43-45 and 253-254:
`label = desc or ftype; formatted = f"{label} ({ftype})"`. -/
def formatted (f : Feature) : String :=
  (if f.description = "" then f.ftype else f.description) ++ " (" ++ f.ftype ++ ")"

/-- One step of the ordered-deduplication loop (lines 46-47 and 255-256):
`if formatted not in descriptions: descriptions.append(formatted)`. -/
def dedupStep (acc : List String) (s : String) : List String :=
  if s ∈ acc then acc else acc ++ [s]

/-- The whole deduplication loop, folding `dedupStep` over the incoming
formatted strings starting from the empty `descriptions` list. -/
def dedupList (l : List String) : List String :=
  l.foldl dedupStep []

/-- `get_feature_descriptions(uniprot_id, start, end)` after a successful
fetch of `doc` (the network call and its failure path are outside this pure
core): loop over the raw features, skip chain entries, keep overlapping ones,
deduplicate their formatted labels in encounter order, and render
`", ".join(descriptions) if descriptions else "Unknown"`. -/
def get_feature_descriptions (doc : RawDocument) (qstart qend : Int) : String :=
  let descriptions := dedupList ((filter_overlap (normalize doc) qstart qend).map formatted)
  if descriptions = [] then "Unknown" else String.intercalate ", " descriptions

/-- The dictionary returned by `get_features_detailed` (lines 116-123).
`regionStart`/`regionEnd` record the two integers of the `region` string
`f"{start}-{end}"`; the `plot` function recovers them by splitting that
string on `"-"`, which for the positive positions used is the identity, so
the layout definitions below read them from these fields. -/
structure DetailedData where
  uniprot_id : String
  protein_name : String
  protein_length : Int
  region : String
  regionStart : Int
  regionEnd : Int
  features : List Feature
  all_features : List Feature
deriving DecidableEq

/-- `get_features_detailed(uniprot_id, start, end)` after a successful fetch
of `doc`: protein length via the nested lookup defaulting to 0, protein name
via the nested lookup defaulting to "Unknown", all normalized features, and
the overlapping subset. -/
def get_features_detailed (uniprot_id : String) (doc : RawDocument)
    (qstart qend : Int) : DetailedData :=
  { uniprot_id := uniprot_id
    protein_name := doc.proteinName?.getD "Unknown"
    protein_length := doc.sequenceLength?.getD 0
    region := toString qstart ++ "-" ++ toString qend
    regionStart := qstart
    regionEnd := qend
    features := filter_overlap (normalize doc) qstart qend
    all_features := normalize doc }

/-- The `result` text renderer (lines 239-258) on a successful lookup (the
`None` and `"error"` states are handled before this point): the
"No features found" message when the overlapping list is empty, otherwise the
comma-joined deduplicated formatted labels. -/
def result_text (data : DetailedData) : String :=
  if data.features = [] then
    "No features found overlapping region " ++ data.region ++ " in " ++ data.uniprot_id
  else
    String.intercalate ", " (dedupList (data.features.map formatted))

/-- The fetch collaborator as seen by the server handler: either a raw
document (HTTP 200 with JSON body) or a raised error message (the
`ValueError` of a failed fetch, or any other exception text). -/
inductive FetchOutcome where
  | success : RawDocument → FetchOutcome
  | failure : String → FetchOutcome

/-- The value held in the `feature_data` reactive cell after one run of the
`fetch_features` handler. -/
inductive ServerState where
  | error : String → ServerState
  | data : DetailedData → ServerState
deriving DecidableEq

/-- The `fetch_features` event handler (lines 216-235) on integer inputs:
strip the accession, reject an empty accession, reject `end < start`, and
only then invoke the fetch (`get_features_detailed` performs the network
call; `fetchRemote` is that call as an oracle).  The boolean result records
whether the fetch was invoked. -/
def fetch_features (uniprot_id_input : String) (start_pos end_pos : Int)
    (fetchRemote : String → FetchOutcome) : ServerState × Bool :=
  let uniprot_id := pyStrip uniprot_id_input
  if uniprot_id = "" then
    (ServerState.error "Please enter a UniProt ID.", false)
  else if end_pos < start_pos then
    (ServerState.error "End position must be ≥ start position.", false)
  else
    match fetchRemote uniprot_id with
    | FetchOutcome.success doc =>
        (ServerState.data (get_features_detailed uniprot_id doc start_pos end_pos), true)
    | FetchOutcome.failure msg => (ServerState.error msg, true)

/-- The two view modes of the Visualization panel. -/
inductive PlotMode where
  | region : PlotMode
  | full : PlotMode

/-- Lines 322-330: `full` mode plots `all_features`, `region` mode plots the
overlapping `features`. -/
def featuresToPlot (data : DetailedData) : PlotMode → List Feature
  | PlotMode.full => data.all_features
  | PlotMode.region => data.features

/-- Stable insertion by ascending `start`: walk past strictly smaller starts,
so that on equal starts the inserted (originally earlier) feature stays
first. -/
def insertByStart (f : Feature) : List Feature → List Feature
  | [] => [f]
  | g :: gs => if g.start < f.start then g :: insertByStart f gs else f :: g :: gs

/-- `sorted(features_to_plot, key=lambda x: x["start"])` (line 384): Python's
`sorted` is exactly the stable sort by ascending start, i.e. the unique
permutation that is ordered by `start` and keeps the input order of features
with equal `start`; it is embedded as stable insertion sort. -/
def sortByStart : List Feature → List Feature
  | [] => []
  | f :: fs => insertByStart f (sortByStart fs)

/-- The label a feature is plotted under before the span is appended:
`feature["description"] if feature["description"] else ftype` (line 398). -/
def displayLabel (f : Feature) : String :=
  if f.description = "" then f.ftype else f.description

/-- The truncation of lines 399-400:
`if len(label) > 35: label = label[:32] + "..."`. -/
def truncLabel (label : String) : String :=
  if label.length > 35 then pyTake label 32 ++ "..." else label

/-- The full tick label of line 401: `f"{label} ({start}-{end})"` with the
feature's own span always appended. -/
def plotLabel (f : Feature) : String :=
  truncLabel (displayLabel f) ++ " (" ++ toString f.start ++ "-" ++ toString f.fend ++ ")"

/-- The renderer-agnostic content of the figure built by `plot`: axis bounds,
the backbone bar drawn at y = -1, one `(y_pos, feature)` bar per feature in
sorted order, the tick labels, and the red highlight band of the queried
region. -/
structure Layout where
  min_pos : Int
  max_pos : Int
  backbone_y : Int
  tracks : List (Nat × Feature)
  labels : List String
  highlight_start : Int
  highlight_end : Int
deriving DecidableEq

/-- The layout computation of `plot` (lines 319-419) on a successful lookup.
`none` models the early "No features to visualize" return when the feature
list for the chosen mode is empty (lines 325-335).  Axis bounds: in `full`
mode the code reads `data.get("protein_length", 1000)`; `get_features_detailed`
always stores that key (line 119), so on this path the read is exactly
`data.protein_length` and the 1000 default is unreachable.  In `region` mode
`padding = int((query_end - query_start) * 0.2)`: Python `int()` truncates
toward zero, and for the integer spans reachable here (far below 2^52, with
0.2 rounding to a double slightly above 1/5 whose integer multiples round
back to within half an ulp of the exact value) the truncated product equals
truncated division by 5, embedded as `Int.tdiv _ 5`.  Tracks: `y_pos` starts
at 0 and increments by 1 per feature of the sorted order (lines 380-403). -/
def plan_layout (data : DetailedData) (mode : PlotMode) : Option Layout :=
  let features_to_plot := featuresToPlot data mode
  if features_to_plot = [] then none
  else
    let bounds : Int × Int :=
      match mode with
      | PlotMode.full => (0, data.protein_length)
      | PlotMode.region =>
          let padding := Int.tdiv (data.regionEnd - data.regionStart) 5
          (max 0 (data.regionStart - padding), data.regionEnd + padding)
    let sorted := sortByStart features_to_plot
    some { min_pos := bounds.1
           max_pos := bounds.2
           backbone_y := -1
           tracks := sorted.enum
           labels := sorted.map plotLabel
           highlight_start := data.regionStart
           highlight_end := data.regionEnd }

/-- The aggregation both textual paths share: the ordered deduplication of
the formatted labels of a feature list. -/
def aggregate (features : List Feature) : List String :=
  dedupList (features.map formatted)

/-- Specification-side description of order-preserving first-occurrence
deduplication: keep each head and delete its later duplicates.  Used to state
that the code's accumulator loop keeps the first occurrence of every
formatted string in position. -/
def firstOccurrences (l : List String) : List String :=
  match l with
  | [] => []
  | x :: xs => x :: firstOccurrences (xs.filter (fun y => y ≠ x))
termination_by l.length
decreasing_by
  simp_wf
  exact Nat.lt_succ_of_le (List.length_filter_le _ _)

/-! Concrete fixtures used to instantiate the theorems below. -/

/-- A feature list with one overlapping and one non-overlapping span for the
query [1, 10]. -/
def fixtureC1 : List Feature :=
  [⟨"Domain", "Kinase", 5, 20⟩, ⟨"Site", "s", 11, 12⟩]

/-- A feature whose display label is exactly 35 characters long. -/
def wideFeature : Feature :=
  { ftype := "Domain", description := ⟨List.replicate 35 'A'⟩, start := 1, fend := 2 }

/-- A feature whose display label is 40 characters long. -/
def hugeFeature : Feature :=
  { ftype := "Domain", description := ⟨List.replicate 40 'B'⟩, start := 3, fend := 9 }

/-- A lookup result for region [2, 9] with one overlapping feature. -/
def dataW4 : DetailedData :=
  { uniprot_id := "P1", protein_name := "X", protein_length := 50, region := "2-9"
    regionStart := 2, regionEnd := 9
    features := [⟨"Domain", "d", 3, 7⟩], all_features := [⟨"Domain", "d", 3, 7⟩] }

/-- A lookup result for region [1, 5]: the query span is 4, so the code's
padding is `int(4 * 0.2) = int(0.8) = 0` while rounding would give 1. -/
def dataCE4 : DetailedData :=
  { uniprot_id := "P1", protein_name := "X", protein_length := 50, region := "1-5"
    regionStart := 1, regionEnd := 5
    features := [⟨"Domain", "d", 2, 4⟩], all_features := [⟨"Domain", "d", 2, 4⟩] }

/-- A raw document with one feature and a known sequence length. -/
def docW5 : RawDocument :=
  ⟨[⟨"Domain", "d", ⟨some 2, some 8⟩⟩], some 42, some "Name"⟩

/-- A raw document with one feature and no sequence length information. -/
def docCE5 : RawDocument :=
  ⟨[⟨"Domain", "d", ⟨some 2, some 8⟩⟩], none, none⟩

/-- A raw feature with both coordinates absent. -/
def rfW : RawFeature := ⟨"Domain", "d", ⟨none, none⟩⟩

/-- The normalized form of `rfW`: both coordinates become the sentinel -1. -/
def fW : Feature := ⟨"Domain", "d", -1, -1⟩

/-- A raw feature whose start is absent but whose end is present. -/
def rfCE6 : RawFeature := ⟨"Site", "active", ⟨none, some 100⟩⟩

/-- A lookup result with two features whose starts force a reordering. -/
def dataW9 : DetailedData :=
  { uniprot_id := "P1", protein_name := "X", protein_length := 100, region := "1-10"
    regionStart := 1, regionEnd := 10
    features := [⟨"Site", "a", 3, 5⟩, ⟨"Domain", "b", 1, 4⟩]
    all_features := [⟨"Site", "a", 3, 5⟩, ⟨"Domain", "b", 1, 4⟩] }

/-- The layout `plan_layout` produces for `dataW9` in region mode. -/
def layoutW9 : Layout :=
  { min_pos := 0, max_pos := 11, backbone_y := -1
    tracks := [(0, ⟨"Domain", "b", 1, 4⟩), (1, ⟨"Site", "a", 3, 5⟩)]
    labels := ["b (1-4)", "a (3-5)"]
    highlight_start := 1, highlight_end := 10 }

/-- A raw document with one feature overlapping the query [2, 6]. -/
def docW10 : RawDocument :=
  ⟨[⟨"Domain", "Kinase", ⟨some 4, some 9⟩⟩, ⟨"Chain", "", ⟨some 1, some 60⟩⟩], some 60, some "P"⟩

/-! Helper lemmas about the deduplication loop. -/

/-- Unfolding the deduplication fold: an accumulator run appends exactly the
first occurrences of the not-yet-seen strings. -/
theorem dedupFold_eq (l : List String) : ∀ acc : List String,
    l.foldl dedupStep acc = acc ++ firstOccurrences (l.filter (fun y => ¬ y ∈ acc)) := by
  induction l with
  | nil => intro acc; simp [firstOccurrences]
  | cons x xs ih =>
    intro acc
    by_cases hx : x ∈ acc
    · rw [List.foldl_cons, dedupStep, if_pos hx, ih, List.filter_cons]
      simp [hx]
    · rw [List.foldl_cons, dedupStep, if_neg hx, ih, List.filter_cons]
      have hd : (decide (¬ x ∈ acc)) = true := by simp [hx]
      rw [hd]
      simp only [if_pos]
      rw [show firstOccurrences (x :: xs.filter (fun y => ¬ y ∈ acc))
            = x :: firstOccurrences ((xs.filter (fun y => ¬ y ∈ acc)).filter (fun y => y ≠ x))
          from by rw [firstOccurrences]]
      rw [List.filter_filter]
      rw [List.append_assoc, List.singleton_append]
      congr 3
      apply List.filter_congr
      intro y _
      simp only [List.mem_append, List.mem_singleton, not_or, Bool.decide_and]
      rw [Bool.and_comm]

/-- The deduplication loop computes exactly the first-occurrence sublist. -/
theorem dedupList_eq_firstOccurrences (l : List String) : dedupList l = firstOccurrences l := by
  have h := dedupFold_eq l []
  simpa [dedupList] using h

/-- First-occurrence deduplication is an order-preserving subsequence. -/
theorem firstOccurrences_sublist (l : List String) : (firstOccurrences l).Sublist l := by
  induction l using firstOccurrences.induct with
  | case1 => simp [firstOccurrences]
  | case2 x xs ih =>
    rw [show firstOccurrences (x :: xs)
          = x :: firstOccurrences (xs.filter (fun y => y ≠ x)) from by rw [firstOccurrences]]
    exact List.Sublist.cons₂ x (ih.trans (List.filter_sublist xs))

/-- First-occurrence deduplication keeps exactly the members of the input. -/
theorem mem_firstOccurrences {a : String} (l : List String) :
    a ∈ firstOccurrences l ↔ a ∈ l := by
  induction l using firstOccurrences.induct with
  | case1 => simp [firstOccurrences]
  | case2 x xs ih =>
    rw [show firstOccurrences (x :: xs)
          = x :: firstOccurrences (xs.filter (fun y => y ≠ x)) from by rw [firstOccurrences]]
    simp only [List.mem_cons, ih, List.mem_filter]
    by_cases hax : a = x <;> simp [hax]

/-- First-occurrence deduplication has no duplicates. -/
theorem firstOccurrences_nodup (l : List String) : (firstOccurrences l).Nodup := by
  induction l using firstOccurrences.induct with
  | case1 => simp [firstOccurrences]
  | case2 x xs ih =>
    rw [show firstOccurrences (x :: xs)
          = x :: firstOccurrences (xs.filter (fun y => y ≠ x)) from by rw [firstOccurrences]]
    refine List.nodup_cons.mpr ⟨?_, ih⟩
    intro hx
    have := (mem_firstOccurrences _).mp hx
    simp [List.mem_filter] at this

/-- On a duplicate-free list first-occurrence deduplication is the identity. -/
theorem firstOccurrences_of_nodup {l : List String} (h : l.Nodup) :
    firstOccurrences l = l := by
  induction l using firstOccurrences.induct with
  | case1 => simp [firstOccurrences]
  | case2 x xs ih =>
    rw [show firstOccurrences (x :: xs)
          = x :: firstOccurrences (xs.filter (fun y => y ≠ x)) from by rw [firstOccurrences]]
    rcases List.nodup_cons.mp h with ⟨hx, hxs⟩
    have hf : xs.filter (fun y => y ≠ x) = xs := by
      apply List.filter_eq_self.mpr
      intro y hy
      simp
      rintro rfl
      exact hx hy
    rw [hf] at ih ⊢
    rw [ih hxs]

/-- The deduplication loop is idempotent. -/
theorem dedupList_idem (l : List String) : dedupList (dedupList l) = dedupList l := by
  rw [dedupList_eq_firstOccurrences, dedupList_eq_firstOccurrences,
    firstOccurrences_of_nodup (firstOccurrences_nodup l)]

/-- The deduplication loop returns an empty list only on an empty input. -/
theorem dedupList_eq_nil_iff (l : List String) : dedupList l = [] ↔ l = [] := by
  rw [dedupList_eq_firstOccurrences]
  cases l with
  | nil => simp [firstOccurrences]
  | cons x xs =>
    rw [show firstOccurrences (x :: xs)
          = x :: firstOccurrences (xs.filter (fun y => y ≠ x)) from by rw [firstOccurrences]]
    simp

/-! Helper lemmas about the stable sort by start position. -/

/-- Stable insertion is a permutation of consing. -/
theorem insertByStart_perm (f : Feature) (l : List Feature) :
    (insertByStart f l).Perm (f :: l) := by
  induction l with
  | nil => simp [insertByStart]
  | cons g gs ih =>
    rw [insertByStart]
    by_cases h : g.start < f.start
    · rw [if_pos h]
      exact (ih.cons g).trans (List.Perm.swap f g gs)
    · rw [if_neg h]

/-- The stable sort permutes its input. -/
theorem sortByStart_perm (l : List Feature) : (sortByStart l).Perm l := by
  induction l with
  | nil => simp [sortByStart]
  | cons f fs ih =>
    rw [sortByStart]
    exact (insertByStart_perm f (sortByStart fs)).trans (ih.cons f)

/-- Stable insertion preserves sortedness by start. -/
theorem insertByStart_pairwise (f : Feature) {l : List Feature}
    (h : l.Pairwise (fun a b => a.start ≤ b.start)) :
    (insertByStart f l).Pairwise (fun a b => a.start ≤ b.start) := by
  induction l with
  | nil => simp [insertByStart]
  | cons g gs ih =>
    rcases List.pairwise_cons.mp h with ⟨hg, hgs⟩
    rw [insertByStart]
    by_cases hlt : g.start < f.start
    · rw [if_pos hlt]
      refine List.pairwise_cons.mpr ⟨?_, ih hgs⟩
      intro y hy
      rcases List.mem_cons.mp ((insertByStart_perm f gs).mem_iff.mp hy) with rfl | hy2
      · exact le_of_lt hlt
      · exact hg y hy2
    · rw [if_neg hlt]
      have hfg : f.start ≤ g.start := le_of_not_lt hlt
      refine List.pairwise_cons.mpr ⟨?_, h⟩
      intro y hy
      rcases List.mem_cons.mp hy with rfl | hy2
      · exact hfg
      · exact hfg.trans (hg y hy2)

/-- The stable sort is sorted by ascending start. -/
theorem sortByStart_pairwise (l : List Feature) :
    (sortByStart l).Pairwise (fun a b => a.start ≤ b.start) := by
  induction l with
  | nil => simp [sortByStart]
  | cons f fs ih =>
    rw [sortByStart]
    exact insertByStart_pairwise f ih

/-- Stable insertion keeps the features of any one start value in order:
the inserted feature lands in front of the equals already present. -/
theorem insertByStart_filter (f : Feature) (l : List Feature) (s : Int) :
    (insertByStart f l).filter (fun g => g.start = s)
      = (f :: l).filter (fun g => g.start = s) := by
  induction l with
  | nil => rfl
  | cons g gs ih =>
    rw [insertByStart]
    by_cases hlt : g.start < f.start
    · rw [if_pos hlt]
      by_cases hf : f.start = s
      · have hg : ¬ g.start = s := by omega
        simp [List.filter_cons, ih, hf, hg]
      · by_cases hg : g.start = s <;> simp [List.filter_cons, ih, hf, hg]
    · rw [if_neg hlt]

/-- Stability of the sort: for every start value, the features carrying it
appear in the sorted output in their original input order. -/
theorem sortByStart_filter (l : List Feature) (s : Int) :
    (sortByStart l).filter (fun g => g.start = s)
      = l.filter (fun g => g.start = s) := by
  induction l with
  | nil => rfl
  | cons f fs ih =>
    rw [sortByStart, insertByStart_filter]
    simp [List.filter_cons, ih]

/-- The boolean overlap test of the code, as the inequality pair of the
specification. -/
theorem overlaps_iff (f : Feature) (qs qe : Int) :
    overlaps f qs qe = true ↔ (qs ≤ f.fend ∧ f.start ≤ qe) := by
  simp [overlaps]

/-- Python slicing keeps at most the requested number of characters. -/
theorem pyTake_length (s : String) (n : Nat) : (pyTake s n).length = min n s.length := by
  show (s.data.take n).length = min n s.data.length
  exact List.length_take n s.data

/-- The length of a processed plot label: unchanged up to 35 characters,
cut to exactly 35 (32 kept plus the three-character ellipsis) above that. -/
theorem truncLabel_length (s : String) : (truncLabel s).length = min s.length 35 := by
  rw [truncLabel]
  by_cases h : s.length > 35
  · rw [if_pos h, String.length_append, pyTake_length]
    have h3 : ("..." : String).length = 3 := rfl
    rw [h3]
    omega
  · rw [if_neg h]
    omega

/-! The claims. -/

/-- Claim C1: for every query interval [qs, qe] with qs ≤ qe, the overlap
filter returns exactly the features whose span satisfies fend ≥ qs and
fstart ≤ qe, as an order-preserving subsequence of its input; reversed or
degenerate spans (including the −1 sentinel) go through the same test with
no special-casing, which the unrestricted quantification over `features`
expresses. -/
theorem overlap_filter_exact (qstart qend : Int) (h : qstart ≤ qend) (features : List Feature) :
    filter_overlap features qstart qend
        = features.filter (fun f => decide (qstart ≤ f.fend ∧ f.start ≤ qend))
      ∧ (filter_overlap features qstart qend).Sublist features
      ∧ ∀ f : Feature, f ∈ filter_overlap features qstart qend
          ↔ f ∈ features ∧ qstart ≤ f.fend ∧ f.start ≤ qend := by
  refine ⟨?_, List.filter_sublist features, ?_⟩
  · apply List.filter_congr
    intro f _
    rw [Bool.eq_iff_iff, overlaps_iff, decide_eq_true_iff]
  · intro f
    simp [filter_overlap, List.mem_filter, overlaps_iff, and_assoc]

/-- Claim C1 witness: the filter characterization instantiated on the query
[1, 10] and a concrete feature list. -/
theorem overlap_filter_exact_witness :
    ((1 : Int) ≤ 10)
      ∧ (filter_overlap fixtureC1 1 10
            = fixtureC1.filter (fun f => decide ((1 : Int) ≤ f.fend ∧ f.start ≤ (10 : Int)))
          ∧ (filter_overlap fixtureC1 1 10).Sublist fixtureC1
          ∧ ∀ f : Feature, f ∈ filter_overlap fixtureC1 1 10
              ↔ f ∈ fixtureC1 ∧ (1 : Int) ≤ f.fend ∧ f.start ≤ (10 : Int)) :=
  ⟨by decide, overlap_filter_exact 1 10 (by decide) fixtureC1⟩

/-- Claim C2 counterexample: on a successful fetch with an empty overlapping
set, the app's textual result surface (the `result` renderer) is the
"No features found..." message, not the literal "Unknown" the claim
requires. -/
theorem result_surface_not_unknown_counterexample :
    (get_features_detailed "P1" ⟨[], none, none⟩ 1 10).features = []
      ∧ result_text (get_features_detailed "P1" ⟨[], none, none⟩ 1 10)
          = "No features found overlapping region 1-10 in P1"
      ∧ result_text (get_features_detailed "P1" ⟨[], none, none⟩ 1 10) ≠ "Unknown" := by
  decide

/-- Claim C2 (amended): on an empty overlapping set, the standalone helper
`get_feature_descriptions` returns exactly "Unknown" (line 48), while the
app's `result` renderer returns the message
"No features found overlapping region {region} in {id}" (lines 247-248). -/
theorem empty_overlap_text_surfaces (id : String) (doc : RawDocument) (qs qe : Int)
    (h : (get_features_detailed id doc qs qe).features = []) :
    get_feature_descriptions doc qs qe = "Unknown"
      ∧ result_text (get_features_detailed id doc qs qe)
          = "No features found overlapping region " ++ (toString qs ++ "-" ++ toString qe)
              ++ " in " ++ id := by
  have hf : filter_overlap (normalize doc) qs qe = [] := h
  constructor
  · simp [get_feature_descriptions, hf, dedupList]
  · simp [result_text, get_features_detailed, hf]

/-- Claim C2 witness: both textual surfaces evaluated on an empty document
and the query [1, 10]. -/
theorem empty_overlap_text_surfaces_witness :
    get_feature_descriptions ⟨[], none, none⟩ 1 10 = "Unknown"
      ∧ result_text (get_features_detailed "P1" ⟨[], none, none⟩ 1 10)
          = "No features found overlapping region " ++ (toString (1 : Int) ++ "-" ++ toString (10 : Int))
              ++ " in " ++ "P1" :=
  empty_overlap_text_surfaces "P1" ⟨[], none, none⟩ 1 10 (by decide)

/-- Claim C3 counterexample: a display label of exactly 35 characters
exceeds the claimed 34-character budget yet is passed through untruncated,
with its final length 35 still above that budget (the code truncates only
above 35 characters). -/
theorem label_budget34_counterexample :
    (displayLabel wideFeature).length = 35
      ∧ truncLabel (displayLabel wideFeature) = displayLabel wideFeature
      ∧ ¬ (truncLabel (displayLabel wideFeature)).length ≤ 34 := by
  decide

/-- Claim C3 (amended): the truncation budget is 35 characters, not 34:
a display label longer than 35 characters is cut to its first 32 characters
plus the "..." marker, totalling exactly 35; a label of at most 35
characters is unchanged; either way the processed label stays within 35
characters and the feature's own (start-end) span is appended afterwards. -/
theorem label_truncation_budget35 (f : Feature) :
    ((displayLabel f).length ≤ 35 → truncLabel (displayLabel f) = displayLabel f)
      ∧ ((displayLabel f).length > 35 →
          truncLabel (displayLabel f) = pyTake (displayLabel f) 32 ++ "..."
            ∧ (truncLabel (displayLabel f)).length = 35)
      ∧ (truncLabel (displayLabel f)).length ≤ 35
      ∧ plotLabel f
          = truncLabel (displayLabel f) ++ " (" ++ toString f.start ++ "-" ++ toString f.fend ++ ")" := by
  refine ⟨?_, ?_, ?_, rfl⟩
  · intro h
    rw [truncLabel, if_neg (by omega)]
  · intro h
    exact ⟨by rw [truncLabel, if_pos h], by rw [truncLabel_length]; omega⟩
  · rw [truncLabel_length]
    omega

/-- Claim C3 witness: the truncation branch on a 40-character label. -/
theorem label_truncation_budget35_witness :
    truncLabel (displayLabel hugeFeature) = pyTake (displayLabel hugeFeature) 32 ++ "..."
      ∧ (truncLabel (displayLabel hugeFeature)).length = 35 :=
  (label_truncation_budget35 hugeFeature).2.1 (by decide)

/-- Claim C4 counterexample: for the region [1, 5] the code's padding is
`int(0.2 * 4) = int(0.8) = 0` and the axis bounds are [1, 5]; the claimed
`round(0.2 * 4) = round(0.8) = 1` would give [0, 6]. -/
theorem region_padding_round_counterexample :
    (plan_layout dataCE4 PlotMode.region).map (fun l => (l.min_pos, l.max_pos)) = some (1, 5)
      ∧ ((1 : Int), (5 : Int)) ≠ ((0 : Int), (6 : Int)) := by
  decide

/-- Claim C4 (amended): in region view mode, for 1 ≤ qs ≤ qe, the axis
bounds are [max(0, qs − p), qe + p] with p = 0.2·(qe − qs) truncated toward
zero (Python `int()`), not rounded; when p is 0 the bounds are exactly
[qs, qe]. -/
theorem region_mode_axis_bounds (data : DetailedData)
    (h1 : 1 ≤ data.regionStart) (h2 : data.regionStart ≤ data.regionEnd)
    (h3 : ¬ data.features = []) :
    ∃ l : Layout, plan_layout data PlotMode.region = some l
      ∧ l.min_pos = max 0 (data.regionStart - Int.tdiv (data.regionEnd - data.regionStart) 5)
      ∧ l.max_pos = data.regionEnd + Int.tdiv (data.regionEnd - data.regionStart) 5
      ∧ (Int.tdiv (data.regionEnd - data.regionStart) 5 = 0 →
          l.min_pos = data.regionStart ∧ l.max_pos = data.regionEnd) := by
  simp only [plan_layout, featuresToPlot]
  rw [if_neg h3]
  refine ⟨_, rfl, rfl, rfl, ?_⟩
  intro hp
  constructor
  · show max 0 (data.regionStart - Int.tdiv (data.regionEnd - data.regionStart) 5)
      = data.regionStart
    rw [hp, sub_zero]
    exact max_eq_right (by omega)
  · show data.regionEnd + Int.tdiv (data.regionEnd - data.regionStart) 5 = data.regionEnd
    rw [hp, add_zero]

/-- Claim C4 witness: the bounds formula instantiated on the region [2, 9]
(span 7, truncated padding 1). -/
theorem region_mode_axis_bounds_witness :
    (1 : Int) ≤ dataW4.regionStart ∧ dataW4.regionStart ≤ dataW4.regionEnd
      ∧ ¬ dataW4.features = []
      ∧ (∃ l : Layout, plan_layout dataW4 PlotMode.region = some l
          ∧ l.min_pos = max 0 (dataW4.regionStart - Int.tdiv (dataW4.regionEnd - dataW4.regionStart) 5)
          ∧ l.max_pos = dataW4.regionEnd + Int.tdiv (dataW4.regionEnd - dataW4.regionStart) 5
          ∧ (Int.tdiv (dataW4.regionEnd - dataW4.regionStart) 5 = 0 →
              l.min_pos = dataW4.regionStart ∧ l.max_pos = dataW4.regionEnd)) :=
  ⟨by decide, by decide, by decide,
    region_mode_axis_bounds dataW4 (by decide) (by decide) (by decide)⟩

/-- Claim C5 counterexample: when the document carries no sequence length,
the full-mode axis bounds are the zero-width [0, 0], not a 1000-wide
fallback: `get_features_detailed` stores `protein_length = 0`, so the
`data.get("protein_length", 1000)` default of line 364 (which fires only on
an absent key) is unreachable on this path. -/
theorem full_mode_zero_width_counterexample :
    (get_features_detailed "P1" docCE5 1 10).protein_length = 0
      ∧ (plan_layout (get_features_detailed "P1" docCE5 1 10) PlotMode.full).map
          (fun l => (l.min_pos, l.max_pos)) = some (0, 0)
      ∧ ((0 : Int), (0 : Int)) ≠ ((0 : Int), (1000 : Int)) := by
  decide

/-- Claim C5 (amended): in full view mode the axis bounds are
[0, protein_length], where protein_length is read from the document and
defaults to 0 when the length is absent — so an unknown length yields a
zero-width axis rather than the claimed fixed 1000 fallback. -/
theorem full_mode_axis_bounds (id : String) (doc : RawDocument) (qs qe : Int)
    (h : ¬ (get_features_detailed id doc qs qe).all_features = []) :
    ∃ l : Layout, plan_layout (get_features_detailed id doc qs qe) PlotMode.full = some l
      ∧ l.min_pos = 0 ∧ l.max_pos = doc.sequenceLength?.getD 0 := by
  simp only [plan_layout, featuresToPlot]
  rw [if_neg h]
  exact ⟨_, rfl, rfl, rfl⟩

/-- Claim C5 witness: the full-mode bounds on a document of length 42. -/
theorem full_mode_axis_bounds_witness :
    ∃ l : Layout, plan_layout (get_features_detailed "P1" docW5 1 10) PlotMode.full = some l
      ∧ l.min_pos = 0 ∧ l.max_pos = docW5.sequenceLength?.getD 0 :=
  full_mode_axis_bounds "P1" docW5 1 10 (by decide)

/-- Claim C6 counterexample: a feature whose location start is absent but
whose end is 100 normalizes to the span [−1, 100] and still passes the
overlap test for the query [1, 10] (qs ≥ 1), appearing among the
overlapping features — refuting "never appears among the overlapping
features" for entries with any absent coordinate. -/
theorem missing_start_overlap_counterexample :
    rfCE6.location.startValue? = none
      ∧ (get_features_detailed "P1" ⟨[rfCE6], some 200, none⟩ 1 10).features
          = [⟨"Site", "active", -1, 100⟩] := by
  decide

/-- Claim C6 (amended): normalization substitutes the sentinel −1 for each
absent coordinate; an entry whose END coordinate is absent fails the overlap
test for every query with qs ≥ 1 (since −1 < 1 ≤ qs), but an absent start
alone does not exclude an entry (−1 ≤ qe always holds). -/
theorem missing_coordinate_sentinel (rf : RawFeature) (f : Feature) (qs qe : Int)
    (hn : normalizeFeature rf = some f) :
    (rf.location.startValue? = none → f.start = -1)
      ∧ (rf.location.endValue? = none → f.fend = -1)
      ∧ (rf.location.endValue? = none → 1 ≤ qs → overlaps f qs qe = false) := by
  rw [normalizeFeature] at hn
  by_cases hc : pyLower (pyStrip rf.ftype) = "chain"
  · rw [if_pos hc] at hn
    exact absurd hn (by simp)
  · rw [if_neg hc] at hn
    injection hn with hf
    refine ⟨?_, ?_, ?_⟩
    · intro hs
      rw [← hf]
      simp [hs]
    · intro he
      rw [← hf]
      simp [he]
    · intro he hq
      have hfe : f.fend = -1 := by rw [← hf]; simp [he]
      simp only [overlaps, hfe]
      simp
      omega

/-- Claim C6 witness: the sentinel substitution and the failing overlap test
on a feature with both coordinates absent, against the query [1, 10]. -/
theorem missing_coordinate_sentinel_witness :
    fW.start = -1 ∧ fW.fend = -1 ∧ overlaps fW 1 10 = false := by
  have h := missing_coordinate_sentinel rfW fW 1 10 (by decide)
  exact ⟨h.1 rfl, h.2.1 rfl, h.2.2 rfl (by decide)⟩

/-- Claim C7: aggregation deduplicates by the exact formatted string
"{label} ({type})" with label the description if non-empty else the type
(the definition of `formatted`), keeping each first occurrence in its
position (the `firstOccurrences` characterization and the sublist property);
the result holds each formatted string at most once (`Nodup`), and the
deduplication is idempotent: running it again on its own output changes
nothing. -/
theorem aggregation_dedup_first_occurrence_idempotent (features : List Feature) :
    aggregate features = firstOccurrences (features.map formatted)
      ∧ (aggregate features).Sublist (features.map formatted)
      ∧ (aggregate features).Nodup
      ∧ dedupList (aggregate features) = aggregate features := by
  refine ⟨dedupList_eq_firstOccurrences _, ?_, ?_, dedupList_idem _⟩
  · rw [aggregate, dedupList_eq_firstOccurrences]
    exact firstOccurrences_sublist _
  · rw [aggregate, dedupList_eq_firstOccurrences]
    exact firstOccurrences_nodup _

/-- Claim C8: an empty (stripped) accession or end < start produces a
validation-error state with the fetch not invoked (the boolean component is
false), and these are the only validations: in every other case the fetch
runs (the boolean component is true regardless of the fetch outcome). -/
theorem validation_before_fetch (uniprot_id_input : String) (start_pos end_pos : Int)
    (fetchRemote : String → FetchOutcome) :
    (pyStrip uniprot_id_input = "" →
        fetch_features uniprot_id_input start_pos end_pos fetchRemote
          = (ServerState.error "Please enter a UniProt ID.", false))
      ∧ (¬ pyStrip uniprot_id_input = "" → end_pos < start_pos →
          fetch_features uniprot_id_input start_pos end_pos fetchRemote
            = (ServerState.error "End position must be ≥ start position.", false))
      ∧ (¬ pyStrip uniprot_id_input = "" → ¬ end_pos < start_pos →
          (fetch_features uniprot_id_input start_pos end_pos fetchRemote).2 = true) := by
  refine ⟨?_, ?_, ?_⟩
  · intro h
    simp [fetch_features, h]
  · intro h1 h2
    simp [fetch_features, h1, h2]
  · intro h1 h2
    simp only [fetch_features]
    rw [if_neg h1, if_neg h2]
    cases fetchRemote (pyStrip uniprot_id_input) <;> rfl

/-- Claim C8 witness: the three branches exercised on concrete inputs with a
failing fetch double. -/
theorem validation_before_fetch_witness :
    fetch_features "" 1 10 (fun _ => FetchOutcome.failure "boom")
        = (ServerState.error "Please enter a UniProt ID.", false)
      ∧ fetch_features "P1" 10 1 (fun _ => FetchOutcome.failure "boom")
          = (ServerState.error "End position must be ≥ start position.", false)
      ∧ (fetch_features "P1" 1 10 (fun _ => FetchOutcome.failure "boom")).2 = true :=
  ⟨(validation_before_fetch "" 1 10 _).1 (by decide),
    (validation_before_fetch "P1" 10 1 _).2.1 (by decide) (by decide),
    (validation_before_fetch "P1" 1 10 _).2.2 (by decide) (by decide)⟩

/-- Claim C9: in every computed layout the track indices are exactly
0, 1, …, n−1 in list order (`map Prod.fst = range`), one per laid-out
feature, the features occupy them sorted by ascending start
(`Pairwise`) as a permutation of the input, with ties kept in original
input order (the filter-stability equation), while the backbone bar is
drawn on the reserved track −1 below all feature tracks. -/
theorem track_assignment_contiguous_sorted_stable (data : DetailedData) (mode : PlotMode)
    (l : Layout) (h : plan_layout data mode = some l) :
    l.tracks.map Prod.fst = List.range l.tracks.length
      ∧ l.tracks.length = (featuresToPlot data mode).length
      ∧ (l.tracks.map Prod.snd).Pairwise (fun a b => a.start ≤ b.start)
      ∧ (l.tracks.map Prod.snd).Perm (featuresToPlot data mode)
      ∧ (∀ s : Int, (l.tracks.map Prod.snd).filter (fun g => g.start = s)
          = (featuresToPlot data mode).filter (fun g => g.start = s))
      ∧ l.backbone_y = -1 := by
  by_cases he : featuresToPlot data mode = []
  · exfalso
    simp [plan_layout, he] at h
  · simp only [plan_layout] at h
    rw [if_neg he] at h
    injection h with h
    subst h
    refine ⟨?_, ?_, ?_, ?_, ?_, rfl⟩
    · show (sortByStart (featuresToPlot data mode)).enum.map Prod.fst
        = List.range ((sortByStart (featuresToPlot data mode)).enum.length)
      rw [List.enum_map_fst, List.enum_length]
    · show (sortByStart (featuresToPlot data mode)).enum.length = (featuresToPlot data mode).length
      rw [List.enum_length]
      exact (sortByStart_perm _).length_eq
    · show ((sortByStart (featuresToPlot data mode)).enum.map Prod.snd).Pairwise
        (fun a b => a.start ≤ b.start)
      rw [List.enum_map_snd]
      exact sortByStart_pairwise _
    · show ((sortByStart (featuresToPlot data mode)).enum.map Prod.snd).Perm
        (featuresToPlot data mode)
      rw [List.enum_map_snd]
      exact sortByStart_perm _
    · intro s
      show ((sortByStart (featuresToPlot data mode)).enum.map Prod.snd).filter
          (fun g => g.start = s)
        = (featuresToPlot data mode).filter (fun g => g.start = s)
      rw [List.enum_map_snd]
      exact sortByStart_filter _ s

/-- Claim C9 witness: the layout of `dataW9` (two features given out of
start order) has track indices 0, 1 and the backbone at −1. -/
theorem track_assignment_witness :
    ∃ l : Layout, plan_layout dataW9 PlotMode.region = some l
      ∧ l.tracks.map Prod.fst = List.range l.tracks.length
      ∧ l.backbone_y = -1 := by
  have h : plan_layout dataW9 PlotMode.region = some layoutW9 := by decide
  have t := track_assignment_contiguous_sorted_stable dataW9 PlotMode.region layoutW9 h
  exact ⟨layoutW9, h, t.1, t.2.2.2.2.2⟩

/-- Claim C10: whenever the overlapping feature set is non-empty, the
`result` renderer's comma-joined deduplicated label string on the data of
`get_features_detailed` equals the string `get_feature_descriptions`
computes from the same document and query interval. -/
theorem text_paths_equivalent (id : String) (doc : RawDocument) (qs qe : Int)
    (h : ¬ (get_features_detailed id doc qs qe).features = []) :
    result_text (get_features_detailed id doc qs qe) = get_feature_descriptions doc qs qe := by
  have hf : ¬ filter_overlap (normalize doc) qs qe = [] := h
  have hd : ¬ dedupList ((filter_overlap (normalize doc) qs qe).map formatted) = [] := by
    rw [dedupList_eq_nil_iff]
    simp [hf]
  rw [result_text, if_neg h]
  simp only [get_feature_descriptions]
  rw [if_neg hd]
  rfl

/-- Claim C10 witness: both textual paths agree on a document with one
feature overlapping the query [2, 6]. -/
theorem text_paths_equivalent_witness :
    result_text (get_features_detailed "P1" docW10 2 6) = get_feature_descriptions docW10 2 6 :=
  text_paths_equivalent "P1" docW10 2 6 (by decide)

end UniportChecker
